import Mathlib

/-!
Verification of the `mtx` package (thread-safe wrappers `RWMtx`, `RWMtxMap`,
`RWMtxSlice` from `internal/mtx/mtx.go`).

The Go code guards a value with a `sync.RWMutex`; every public operation
acquires the lock, runs its body, and releases the lock.  In the sequential
functional shadow below a guard is a record holding the guarded value, and
each operation is the state transformation its critical section performs.
Go closures capture outer local variables (`out`, `ok`, ...); that captured
environment is modelled as an explicit state `S` threaded through the
callback.  A callback returning a Go `error` is modelled as returning
`Option E` (`none` = `nil`).  A Go panic (out-of-bounds index) is modelled
by an `Option` result on the operation (`none` = panic); note a panic is a
different channel from an `error` value: the operation's result type for
`Remove` has no error component at all.

For claims about aliasing (leaking a live reference vs. returning a copy)
the value-semantics shadow is too coarse: Go map values and slice headers
are references to heap-allocated storage.  Namespace `HeapModel` refines
those parts: a heap is a list of cells, a Go map/array value is an index
into it, `make` is allocation of a fresh cell.
-/

namespace Mtx

universe u

/-- Model of `RWMtx[T]`: the guarded value.  The `sync.RWMutex` field only
serializes the critical sections; in the sequential model each operation is
one atomic state transformation, so the lock itself carries no data. -/
structure RWMtx (T : Type u) where
  v : T

/-- `NewRWMtx(v)` — construct a guard holding `v`. -/
def NewRWMtx {T : Type u} (v : T) : RWMtx T :=
  ⟨v⟩

/-- `Get()` — `m.RLock(); defer m.RUnlock(); return m.v`: returns the guarded
value (Go assignment semantics: a copy of the value `m.v`). -/
def RWMtx.Get {T : Type u} (m : RWMtx T) : T :=
  m.v

/-- `Set(v)` — `m.Lock(); defer m.Unlock(); m.v = v`. -/
def RWMtx.Set {T : Type u} (_m : RWMtx T) (v : T) : RWMtx T :=
  ⟨v⟩

/-- `RWithE(clb)` — `m.RLock(); defer m.RUnlock(); return clb(m.v)`.
`clb` receives the guarded value read-only; it may also update its captured
environment `S` and returns a Go `error` (`Option E`). -/
def RWMtx.RWithE {T : Type u} {S E : Type} (m : RWMtx T)
    (clb : T → S → S × Option E) (s : S) : S × Option E :=
  clb m.v s

/-- `RWith(clb)` — the source wraps `clb` into an error-returning callback
that runs `clb` and returns `nil`, passes it to `RWithE`, and discards the
(always-`nil`) error. -/
def RWMtx.RWith {T : Type u} {S : Type} (m : RWMtx T)
    (clb : T → S → S) (s : S) : S :=
  (m.RWithE (fun tx s => (clb tx s, (none : Option Unit))) s).1

/-- `WithE(clb)` — `m.Lock(); defer m.Unlock(); return clb(&m.v)`.
`clb` receives the guarded value through a pointer: it may replace it (the
`T` component of its result) and update its captured environment. -/
def RWMtx.WithE {T : Type u} {S E : Type} (m : RWMtx T)
    (clb : T → S → (T × S) × Option E) (s : S) : (RWMtx T × S) × Option E :=
  let r := clb m.v s
  ((⟨r.1.1⟩, r.1.2), r.2)

/-- `With(clb)` — the source wraps `clb` into an error-returning callback
that runs `clb` and returns `nil`, passes it to `WithE`, and discards the
(always-`nil`) error. -/
def RWMtx.With {T : Type u} {S : Type} (m : RWMtx T)
    (clb : T → S → T × S) (s : S) : RWMtx T × S :=
  (m.WithE (fun tx s => (clb tx s, (none : Option Unit))) s).1

/-! ### Go map primitives

A Go `map[K]V` is semantically a finite partial function; `m[k]` in the
comma-ok form yields the stored value and `true`, or `V`'s zero value
(modelled by `Inhabited.default`) and `false`. -/

/-- Semantic model of a Go `map[K]V`. -/
def GoMap (K V : Type) : Type :=
  K → Option V

instance {K V : Type} : Inhabited (GoMap K V) :=
  ⟨fun _ => none⟩

/-- `out, ok = m[k]` — comma-ok map indexing. -/
def goIndex {K V : Type} [DecidableEq K] [Inhabited V]
    (mp : GoMap K V) (k : K) : V × Bool :=
  ((mp k).getD default, (mp k).isSome)

/-- `m[k] = v` — map assignment (insert or overwrite). -/
def goStore {K V : Type} [DecidableEq K] (mp : GoMap K V) (k : K) (v : V) :
    GoMap K V :=
  fun q => if q = k then some v else mp q

/-- `delete(m, k)` — removes `k` if present, no-op otherwise. -/
def goDelete {K V : Type} [DecidableEq K] (mp : GoMap K V) (k : K) :
    GoMap K V :=
  fun q => if q = k then none else mp q

/-- Model of `RWMtxMap[K,V]`: a struct embedding `RWMtx[map[K]V]`. -/
structure RWMtxMap (K V : Type) where
  toRWMtx : RWMtx (GoMap K V)

/-- `NewRWMtxMap()` — a guard over an empty map. -/
def NewRWMtxMap (K V : Type) : RWMtxMap K V :=
  ⟨NewRWMtx (fun _ => none)⟩

variable {K V : Type} [DecidableEq K] [Inhabited V]

/-- `Store(k, v)` — `m.With(func(m *map[K]V) { (*m)[k] = v })`. -/
def RWMtxMap.Store (m : RWMtxMap K V) (k : K) (v : V) : RWMtxMap K V :=
  ⟨(m.toRWMtx.With (fun mp (_ : Unit) => (goStore mp k v, ())) ()).1⟩

/-- `Load(k)` — `m.RWith(func(m map[K]V) { out, ok = m[k] }); return`.
The captured environment is the pair of result variables `(out, ok)`,
zero-initialized. -/
def RWMtxMap.Load (m : RWMtxMap K V) (k : K) : V × Bool :=
  m.toRWMtx.RWith (fun mp (_ : V × Bool) => goIndex mp k) (default, false)

/-- `LoadAndDelete(k)` — one `With` critical section that reads the comma-ok
index and then deletes the key: `out, loaded = (*m)[k]; delete(*m, k)`. -/
def RWMtxMap.LoadAndDelete (m : RWMtxMap K V) (k : K) :
    (V × Bool) × RWMtxMap K V :=
  let r := m.toRWMtx.With
    (fun mp (_ : V × Bool) => (goDelete mp k, goIndex mp k)) (default, false)
  (r.2, ⟨r.1⟩)

/-- `Delete(k)` — `m.With(func(m *map[K]V) { delete(*m, k) })`. -/
def RWMtxMap.Delete (m : RWMtxMap K V) (k : K) : RWMtxMap K V :=
  ⟨(m.toRWMtx.With (fun mp (_ : Unit) => (goDelete mp k, ())) ()).1⟩

/-! ### Slice guard

A Go slice's observable contents are an ordered sequence, modelled as a
`List`.  (Aliasing of the backing array is treated in `HeapModel`.) -/

/-- Model of `RWMtxSlice[T]`: a struct embedding `RWMtx[[]T]`. -/
structure RWMtxSlice (T : Type) where
  toRWMtx : RWMtx (List T)

/-- `(*v)[i]` — Go slice indexing with an `int` index: panics (`none`) unless
`0 ≤ i < len(*v)`. -/
def goIndexSlice {T : Type} (l : List T) (i : Int) : Option T :=
  if i < 0 then none else l[i.toNat]?

/-- `Remove(i)` — inside one `With` section: `out = (*v)[i]` (panics when `i`
is out of bounds, before anything is mutated), then
`*v = (*v)[:i+copy((*v)[i:], (*v)[i+1:])]`: the `copy` shifts the elements
after position `i` one slot to the left (copying `len-i-1` elements) and the
reslice drops the last slot, so the new contents are
`take i ++ drop (i+1)`.  `none` models the panic. -/
def RWMtxSlice.Remove {T : Type} (s : RWMtxSlice T) (i : Int) :
    Option (T × RWMtxSlice T) :=
  match goIndexSlice s.toRWMtx.v i with
  | none => none
  | some out =>
      some (out, ⟨⟨s.toRWMtx.v.take i.toNat ++ s.toRWMtx.v.drop (i.toNat + 1)⟩⟩)

/-- `Append(els...)` — `s.With(func(v *[]T) { *v = append(*v, els...) })`:
appends the arguments in order at the end. -/
def RWMtxSlice.Append {T : Type} (s : RWMtxSlice T) (els : List T) :
    RWMtxSlice T :=
  ⟨(s.toRWMtx.With (fun v (_ : Unit) => (v ++ els, ())) ()).1⟩

/-- `Unshift(el)` — `s.With(func(v *[]T) { *v = append([]T{el}, *v...) })`:
prepends the single element. -/
def RWMtxSlice.Unshift {T : Type} (s : RWMtxSlice T) (el : T) : RWMtxSlice T :=
  ⟨(s.toRWMtx.With (fun v (_ : Unit) => (el :: v, ())) ()).1⟩

/-- `Clone()` — `s.RWith(func(v []T) { out = make([]T, len(v)); copy(out, v) })`:
the returned sequence is element-wise the guarded contents (the freshness of
the `make` allocation is treated in `HeapModel`). -/
def RWMtxSlice.Clone {T : Type} (s : RWMtxSlice T) : List T :=
  s.toRWMtx.RWith (fun v (_ : List T) => v) []

/-- `Len()` — `s.RWith(func(v []T) { out = len(v) })`. -/
def RWMtxSlice.Length (s : RWMtxSlice Nat) : Nat :=
  s.toRWMtx.RWith (fun v (_ : Nat) => v.length) 0

end Mtx

namespace HeapModel

/-!
Reference-level refinement.  In Go a `map[K]V` value and a slice's backing
array are references into the heap: assigning or returning them copies the
reference, not the storage.  A heap is a list of cells of payload type `α`;
a Go container value is the index of its cell; `make` allocates a fresh
cell at the end of the heap.
-/

/-- The heap: a list of allocated cells. -/
structure Heap (α : Type) where
  cells : List α

/-- Allocation (`make`): a fresh cell holding `a`; returns the new heap and
the reference to the fresh cell. -/
def Heap.alloc {α : Type} (h : Heap α) (a : α) : Heap α × Nat :=
  (⟨h.cells ++ [a]⟩, h.cells.length)

/-- Dereference. -/
def Heap.read {α : Type} [Inhabited α] (h : Heap α) (r : Nat) : α :=
  h.cells.getD r default

/-- In-place mutation of the storage a reference points to. -/
def Heap.write {α : Type} (h : Heap α) (r : Nat) (a : α) : Heap α :=
  ⟨h.cells.set r a⟩

/-- `RWMtxMap[K,V]` at reference level: the guarded value is the map
reference (`RWMtx[map[K]V]` guards a map value, i.e. a reference). -/
structure RWMtxMapH (K V : Type) where
  mref : Nat

/-- The promoted `Get()` of the embedded `RWMtx[map[K]V]`: it returns `m.v`,
the guarded map value — at reference level, the reference itself.  The
returned map aliases the guarded storage; nothing is copied. -/
def RWMtxMapH.Get {K V : Type} (g : RWMtxMapH K V) : Nat :=
  g.mref

/-- `Load(k)` at reference level: dereference the guarded map reference
inside the critical section and comma-ok index it; only the element value
and the flag are returned. -/
def RWMtxMapH.Load {K V : Type} [DecidableEq K] [Inhabited V]
    (h : Heap (Mtx.GoMap K V)) (g : RWMtxMapH K V) (k : K) : V × Bool :=
  Mtx.goIndex (h.read g.mref) k

/-- `m[k] = v` performed through a leaked map handle `r`, outside any lock:
plain heap mutation of the storage `r` points to. -/
def rawStore {K V : Type} [DecidableEq K] (h : Heap (Mtx.GoMap K V))
    (r : Nat) (k : K) (v : V) : Heap (Mtx.GoMap K V) :=
  h.write r (Mtx.goStore (h.read r) k v)

/-- `RWMtxSlice[T]` at reference level: the guard holds a reference to the
backing array. -/
structure RWMtxSliceH (T : Type) where
  aref : Nat

/-- `Clone()` at reference level:
`out = make([]T, len(v)); copy(out, v)` — allocate a fresh cell and copy the
current contents into it; the fresh reference is what crosses the lock
boundary. -/
def RWMtxSliceH.Clone {T : Type} (h : Heap (List T)) (s : RWMtxSliceH T) :
    Heap (List T) × Nat :=
  h.alloc (h.read s.aref)

end HeapModel

/-! ## Claims -/

open Mtx

/-- C4: after `Store(k, v)`, `Load(k)` returns `(v, true)`; after
`Delete(k)`, `Load(k)` returns the zero value and `false`; `Load` on an
absent key returns `found = false` with the zero value (it is total — there
is no error channel at all in its result type). -/
theorem c4_map_store_delete_load {K V : Type} [DecidableEq K] [Inhabited V]
    (m : RWMtxMap K V) (k : K) (v : V) :
    ((m.Store k v).Load k = (v, true)) ∧
    ((m.Delete k).Load k = ((default : V), false)) ∧
    (m.toRWMtx.v k = none → m.Load k = ((default : V), false)) := by
  refine ⟨?_, ?_, ?_⟩
  · simp [RWMtxMap.Load, RWMtxMap.Store, RWMtx.RWith, RWMtx.RWithE,
      RWMtx.With, RWMtx.WithE, goIndex, goStore]
  · simp [RWMtxMap.Load, RWMtxMap.Delete, RWMtx.RWith, RWMtx.RWithE,
      RWMtx.With, RWMtx.WithE, goIndex, goDelete]
  · intro h
    simp [RWMtxMap.Load, RWMtx.RWith, RWMtx.RWithE, goIndex, h]

/-- C4 witness: the round trip at concrete inputs. -/
theorem c4_map_store_delete_load_witness :
    (((NewRWMtxMap Nat Nat).Store 1 42).Load 1 = (42, true)) ∧
    ((((NewRWMtxMap Nat Nat).Store 1 42).Delete 1).Load 1 = (0, false)) ∧
    ((NewRWMtxMap Nat Nat).Load 5 = (0, false)) :=
  ⟨(c4_map_store_delete_load (NewRWMtxMap Nat Nat) 1 42).1,
   (c4_map_store_delete_load ((NewRWMtxMap Nat Nat).Store 1 42) 1 42).2.1,
   (c4_map_store_delete_load (NewRWMtxMap Nat Nat) 5 0).2.2 (by decide)⟩

/-- C3: `LoadAndDelete(k)` on a present key `k ↦ v0` returns `(v0, true)`
and removes `k` (a following `Load(k)` yields the zero value and `false`);
on an absent key it returns `(zero, false)` and leaves the map unchanged
(every subsequent `Load` agrees with the original map).  Read and removal
happen in the single `With` critical section. -/
theorem c3_loadAndDelete {K V : Type} [DecidableEq K] [Inhabited V]
    (m : RWMtxMap K V) (k : K) :
    (∀ v0, m.toRWMtx.v k = some v0 →
      (m.LoadAndDelete k).1 = (v0, true) ∧
      ((m.LoadAndDelete k).2.Load k = ((default : V), false))) ∧
    (m.toRWMtx.v k = none →
      (m.LoadAndDelete k).1 = ((default : V), false) ∧
      ∀ q, (m.LoadAndDelete k).2.Load q = m.Load q) := by
  constructor
  · intro v0 h
    constructor
    · simp [RWMtxMap.LoadAndDelete, RWMtx.With, RWMtx.WithE, goIndex, h]
    · simp [RWMtxMap.LoadAndDelete, RWMtxMap.Load, RWMtx.With, RWMtx.WithE,
        RWMtx.RWith, RWMtx.RWithE, goIndex, goDelete]
  · intro h
    constructor
    · simp [RWMtxMap.LoadAndDelete, RWMtx.With, RWMtx.WithE, goIndex, h]
    · intro q
      by_cases hq : q = k
      · subst hq
        simp [RWMtxMap.LoadAndDelete, RWMtxMap.Load, RWMtx.With, RWMtx.WithE,
          RWMtx.RWith, RWMtx.RWithE, goIndex, goDelete, h]
      · simp [RWMtxMap.LoadAndDelete, RWMtxMap.Load, RWMtx.With, RWMtx.WithE,
          RWMtx.RWith, RWMtx.RWithE, goIndex, goDelete, hq]

/-- C3 witness: concrete present and absent keys. -/
theorem c3_loadAndDelete_witness :
    ((((NewRWMtxMap Nat Nat).Store 2 7).LoadAndDelete 2).1 = (7, true)) ∧
    ((((NewRWMtxMap Nat Nat).Store 2 7).LoadAndDelete 2).2.Load 2 = (0, false)) ∧
    ((((NewRWMtxMap Nat Nat).Store 2 7).LoadAndDelete 9).1 = (0, false)) ∧
    ((((NewRWMtxMap Nat Nat).Store 2 7).LoadAndDelete 9).2.Load 2 =
      ((NewRWMtxMap Nat Nat).Store 2 7).Load 2) :=
  ⟨((c3_loadAndDelete ((NewRWMtxMap Nat Nat).Store 2 7) 2).1 7 (by decide)).1,
   ((c3_loadAndDelete ((NewRWMtxMap Nat Nat).Store 2 7) 2).1 7 (by decide)).2,
   ((c3_loadAndDelete ((NewRWMtxMap Nat Nat).Store 2 7) 9).2 (by decide)).1,
   ((c3_loadAndDelete ((NewRWMtxMap Nat Nat).Store 2 7) 9).2 (by decide)).2 2⟩

/-- C5: `Remove(i)` with `i < 0` or `i ≥ length` panics (modelled by `none`):
the operation produces no value and has no recoverable-error channel (its
result type carries no error component). -/
theorem c5_remove_out_of_bounds {T : Type} (s : RWMtxSlice T) (i : Int)
    (h : i < 0 ∨ (s.toRWMtx.v.length : Int) ≤ i) :
    s.Remove i = none := by
  rcases h with h | h
  · simp [RWMtxSlice.Remove, goIndexSlice, h]
  · have h0 : ¬ i < 0 := by omega
    have hge : s.toRWMtx.v.length ≤ i.toNat := by omega
    simp [RWMtxSlice.Remove, goIndexSlice, h0, List.getElem?_eq_none hge]

/-- C5 witness: on `[1,2,3]`, `Remove(5)` and `Remove(-1)` panic. -/
theorem c5_remove_out_of_bounds_witness :
    ((⟨⟨[1, 2, 3]⟩⟩ : RWMtxSlice Nat).Remove 5 = none) ∧
    ((⟨⟨[1, 2, 3]⟩⟩ : RWMtxSlice Nat).Remove (-1) = none) :=
  ⟨c5_remove_out_of_bounds ⟨⟨[1, 2, 3]⟩⟩ 5 (Or.inr (by decide)),
   c5_remove_out_of_bounds ⟨⟨[1, 2, 3]⟩⟩ (-1) (Or.inl (by decide))⟩

/-- C6: `Remove(i)` with `0 ≤ i < n` on contents `[x0..x(n-1)]` succeeds,
returns `xi`, and leaves a sequence of length `n - 1` in which every index
before `i` is unchanged and every index from `i` on holds the element that
was one position to the right. -/
theorem c6_remove_valid {T : Type} (s : RWMtxSlice T) (i : Nat)
    (hi : i < s.toRWMtx.v.length) :
    ((s.Remove (Int.ofNat i)).isSome = true) ∧
    (∀ out s', s.Remove (Int.ofNat i) = some (out, s') →
      s.toRWMtx.v[i]? = some out ∧
      s'.toRWMtx.v.length = s.toRWMtx.v.length - 1 ∧
      (∀ j, j < i → s'.toRWMtx.v[j]? = s.toRWMtx.v[j]?) ∧
      (∀ j, i ≤ j → j < s.toRWMtx.v.length - 1 →
        s'.toRWMtx.v[j]? = s.toRWMtx.v[j + 1]?)) := by
  have hidx : goIndexSlice s.toRWMtx.v (Int.ofNat i) =
      some (s.toRWMtx.v.get ⟨i, hi⟩) := by
    simp [goIndexSlice, List.getElem?_eq_getElem hi]
  have hrem : s.Remove (Int.ofNat i) =
      some (s.toRWMtx.v.get ⟨i, hi⟩,
        ⟨⟨s.toRWMtx.v.take i ++ s.toRWMtx.v.drop (i + 1)⟩⟩) := by
    unfold RWMtxSlice.Remove
    rw [hidx]
    simp [Int.toNat_ofNat]
  have hlen : (s.toRWMtx.v.take i).length = i := by
    simp [List.length_take]
    omega
  refine ⟨by rw [hrem]; rfl, ?_⟩
  intro out s' hsome
  rw [hrem] at hsome
  have hpair := Option.some.inj hsome
  have hout : s.toRWMtx.v.get ⟨i, hi⟩ = out := congrArg Prod.fst hpair
  have hs' : (⟨⟨s.toRWMtx.v.take i ++ s.toRWMtx.v.drop (i + 1)⟩⟩ :
      RWMtxSlice T) = s' := congrArg Prod.snd hpair
  subst hout
  subst hs'
  refine ⟨List.getElem?_eq_getElem hi, ?_, ?_, ?_⟩
  · simp [List.length_append, List.length_take, List.length_drop]
    omega
  · intro j hj
    show (s.toRWMtx.v.take i ++ s.toRWMtx.v.drop (i + 1))[j]? = _
    rw [List.getElem?_append, hlen, if_pos hj, List.getElem?_take_of_lt hj]
  · intro j hji hjlen
    show (s.toRWMtx.v.take i ++ s.toRWMtx.v.drop (i + 1))[j]? = _
    rw [List.getElem?_append, hlen, if_neg (by omega), List.getElem?_drop]
    have harith : i + 1 + (j - i) = j + 1 := by omega
    rw [harith]

/-- C6 witness: on `[1,2,3]`, `Remove(1)` returns `2` and leaves `[1,3]`. -/
theorem c6_remove_valid_witness :
    (((⟨⟨[1, 2, 3]⟩⟩ : RWMtxSlice Nat).Remove (Int.ofNat 1)).isSome = true) ∧
    ((⟨⟨[1, 2, 3]⟩⟩ : RWMtxSlice Nat).Remove (Int.ofNat 1) =
      some (2, ⟨⟨[1, 3]⟩⟩)) :=
  ⟨(c6_remove_valid ⟨⟨[1, 2, 3]⟩⟩ 1 (by decide)).1, rfl⟩

/-- C7: `Append(els...)` appends its arguments in order at the end, leaving
all prior indices unchanged; `Unshift(el)` puts `el` at index 0 and shifts
every existing element one index up; `Clone` observes exactly that. -/
theorem c7_append_unshift {T : Type} (s : RWMtxSlice T) (els : List T)
    (el : T) :
    ((s.Append els).Clone = s.Clone ++ els) ∧
    ((s.Unshift el).Clone = el :: s.Clone) ∧
    (∀ j, j < s.toRWMtx.v.length →
      (s.Append els).toRWMtx.v[j]? = s.toRWMtx.v[j]?) ∧
    (∀ j, j < els.length →
      (s.Append els).toRWMtx.v[s.toRWMtx.v.length + j]? = els[j]?) ∧
    ((s.Unshift el).toRWMtx.v[0]? = some el) ∧
    (∀ j, (s.Unshift el).toRWMtx.v[j + 1]? = s.toRWMtx.v[j]?) := by
  refine ⟨rfl, rfl, ?_, ?_, by simp [RWMtxSlice.Unshift, RWMtx.With,
    RWMtx.WithE], ?_⟩
  · intro j hj
    show (s.toRWMtx.v ++ els)[j]? = _
    rw [List.getElem?_append, if_pos hj]
  · intro j hj
    show (s.toRWMtx.v ++ els)[s.toRWMtx.v.length + j]? = _
    rw [List.getElem?_append, if_neg (by omega), Nat.add_sub_cancel_left]
  · intro j
    show (el :: s.toRWMtx.v)[j + 1]? = _
    simp

/-- C7 witness: from empty, `Append(1,2,3)` then `Clone` is `[1,2,3]`, and a
following `Unshift(0)` then `Clone` is `[0,1,2,3]`. -/
theorem c7_append_unshift_witness :
    (((⟨⟨[]⟩⟩ : RWMtxSlice Nat).Append [1, 2, 3]).Clone = [1, 2, 3]) ∧
    ((((⟨⟨[]⟩⟩ : RWMtxSlice Nat).Append [1, 2, 3]).Unshift 0).Clone =
      [0, 1, 2, 3]) := by
  have h1 := (c7_append_unshift (⟨⟨[]⟩⟩ : RWMtxSlice Nat) [1, 2, 3] 0).1
  have h2 :=
    (c7_append_unshift ((⟨⟨[]⟩⟩ : RWMtxSlice Nat).Append [1, 2, 3]) [] 0).2.1
  exact ⟨h1.trans rfl, h2.trans (by rw [h1]; rfl)⟩

/-- C8: the fallible scoped operations return exactly the error the callback
returned, unmodified; they never synthesize an error of their own, and the
guarded value after `WithE` is exactly what the callback left, whether or
not the callback failed (no rollback, no corruption). -/
theorem c8_error_passthrough {T S E : Type} (m : RWMtx T)
    (clb : T → S → (T × S) × Option E) (clbR : T → S → S × Option E)
    (s : S) :
    ((m.WithE clb s).2 = (clb m.v s).2) ∧
    ((m.WithE clb s).1.1.v = (clb m.v s).1.1) ∧
    ((m.WithE clb s).1.2 = (clb m.v s).1.2) ∧
    ((m.RWithE clbR s).2 = (clbR m.v s).2) ∧
    ((m.RWithE clbR s).1 = (clbR m.v s).1) ∧
    (∀ e, (clb m.v s).2 = some e →
      (m.WithE clb s).2 = some e ∧
      (m.WithE clb s).1.1.v = (clb m.v s).1.1) := by
  exact ⟨rfl, rfl, rfl, rfl, rfl, fun e he => ⟨he, rfl⟩⟩

/-- C8 witness: a mutating callback that fails with error code 7 — `WithE`
returns exactly that error and the mutation (1 ↦ 2) persists. -/
theorem c8_error_passthrough_witness :
    (((NewRWMtx 1).WithE
        (fun v (s : Unit) => ((v + 1, s), some 7)) ()).2 = some 7) ∧
    (((NewRWMtx 1).WithE
        (fun v (s : Unit) => ((v + 1, s), some 7)) ()).1.1.v = 2) := by
  have h := c8_error_passthrough (NewRWMtx 1)
    (fun v (s : Unit) => ((v + 1, s), some (7 : Nat)))
    (fun _ s => (s, none)) ()
  exact ⟨(h.2.2.2.2.2 7 rfl).1, ((h.2.2.2.2.2 7 rfl).2).trans rfl⟩

/-- C10: the non-error scoped operations are exactly the error-returning
ones applied to a wrapper callback that runs the callback and returns `nil`,
with the (always-`nil`) error discarded — precisely how the source defines
`RWith` and `With` in terms of `RWithE` and `WithE`. -/
theorem c10_with_refines_withE {T : Type u} {S : Type} (m : RWMtx T)
    (clbR : T → S → S) (clbW : T → S → T × S) (s : S) :
    (m.RWith clbR s =
      (m.RWithE (fun tx s => (clbR tx s, (none : Option Unit))) s).1) ∧
    ((m.RWithE (fun tx s => (clbR tx s, (none : Option Unit))) s).2 =
      none) ∧
    (m.With clbW s =
      (m.WithE (fun tx s => (clbW tx s, (none : Option Unit))) s).1) ∧
    ((m.WithE (fun tx s => (clbW tx s, (none : Option Unit))) s).2 =
      none) :=
  ⟨rfl, rfl, rfl, rfl⟩

/-- Reading the freshly allocated cell yields the stored payload. -/
theorem HeapModel.Heap.read_alloc_fresh {α : Type} [Inhabited α]
    (h : HeapModel.Heap α) (a : α) :
    (h.alloc a).1.read (h.alloc a).2 = a := by
  simp [HeapModel.Heap.alloc, HeapModel.Heap.read,
    List.getD_eq_getElem?_getD, List.getElem?_concat_length]

/-- Allocation does not disturb any previously allocated cell. -/
theorem HeapModel.Heap.read_alloc_old {α : Type} [Inhabited α]
    (h : HeapModel.Heap α) (a : α) (r : Nat) (hr : r < h.cells.length) :
    (h.alloc a).1.read r = h.read r := by
  simp [HeapModel.Heap.alloc, HeapModel.Heap.read,
    List.getD_eq_getElem?_getD, List.getElem?_append, hr]

/-- Writing one cell does not disturb a different cell. -/
theorem HeapModel.Heap.read_write_ne {α : Type} [Inhabited α]
    (h : HeapModel.Heap α) (r1 r2 : Nat) (a : α) (hne : r1 ≠ r2) :
    (h.write r1 a).read r2 = h.read r2 := by
  simp [HeapModel.Heap.write, HeapModel.Heap.read,
    List.getD_eq_getElem?_getD, List.getElem?_set_ne hne]

/-- C9: `Clone()` allocates a fresh backing array (its reference differs
from the guard's), its contents equal the guarded contents at that instant,
mutating storage through the clone's reference leaves the guarded array —
and hence the contents any subsequent `Clone()` returns — unchanged, and
mutating the guarded array leaves the previously returned clone unchanged. -/
theorem c9_clone_independent {T : Type} (h : HeapModel.Heap (List T))
    (s : HeapModel.RWMtxSliceH T) (hwf : s.aref < h.cells.length) :
    ((HeapModel.RWMtxSliceH.Clone h s).2 ≠ s.aref) ∧
    ((HeapModel.RWMtxSliceH.Clone h s).1.read
        (HeapModel.RWMtxSliceH.Clone h s).2 = h.read s.aref) ∧
    (∀ a, (((HeapModel.RWMtxSliceH.Clone h s).1.write
        (HeapModel.RWMtxSliceH.Clone h s).2 a).read s.aref = h.read s.aref)) ∧
    (∀ a, ((HeapModel.RWMtxSliceH.Clone
        ((HeapModel.RWMtxSliceH.Clone h s).1.write
          (HeapModel.RWMtxSliceH.Clone h s).2 a) s).1.read
        (HeapModel.RWMtxSliceH.Clone
          ((HeapModel.RWMtxSliceH.Clone h s).1.write
            (HeapModel.RWMtxSliceH.Clone h s).2 a) s).2 = h.read s.aref)) ∧
    (∀ a, (((HeapModel.RWMtxSliceH.Clone h s).1.write s.aref a).read
        (HeapModel.RWMtxSliceH.Clone h s).2 =
        (HeapModel.RWMtxSliceH.Clone h s).1.read
          (HeapModel.RWMtxSliceH.Clone h s).2)) := by
  have hfresh : (HeapModel.RWMtxSliceH.Clone h s).2 = h.cells.length := rfl
  have hne : (HeapModel.RWMtxSliceH.Clone h s).2 ≠ s.aref := by
    rw [hfresh]; omega
  have hcontents : (HeapModel.RWMtxSliceH.Clone h s).1.read
      (HeapModel.RWMtxSliceH.Clone h s).2 = h.read s.aref :=
    HeapModel.Heap.read_alloc_fresh h (h.read s.aref)
  have hguard : ∀ a, ((HeapModel.RWMtxSliceH.Clone h s).1.write
      (HeapModel.RWMtxSliceH.Clone h s).2 a).read s.aref = h.read s.aref := by
    intro a
    rw [HeapModel.Heap.read_write_ne _ _ _ _ hne]
    exact HeapModel.Heap.read_alloc_old h (h.read s.aref) s.aref hwf
  refine ⟨hne, hcontents, hguard, ?_, ?_⟩
  · intro a
    unfold HeapModel.RWMtxSliceH.Clone
    rw [HeapModel.Heap.read_alloc_fresh]
    exact hguard a
  · intro a
    exact HeapModel.Heap.read_write_ne _ _ _ _ (fun hEq => hne hEq.symm)

/-- C9 witness: guard over `[1,2,3]` at cell 0; the clone is fresh, equal,
and overwriting the clone's storage with `[99]` leaves the guard reading
`[1,2,3]`. -/
theorem c9_clone_independent_witness :
    ((HeapModel.RWMtxSliceH.Clone
        (⟨[[1, 2, 3]]⟩ : HeapModel.Heap (List Nat)) ⟨0⟩).2 ≠ 0) ∧
    ((HeapModel.RWMtxSliceH.Clone
        (⟨[[1, 2, 3]]⟩ : HeapModel.Heap (List Nat)) ⟨0⟩).1.read
        (HeapModel.RWMtxSliceH.Clone
          (⟨[[1, 2, 3]]⟩ : HeapModel.Heap (List Nat)) ⟨0⟩).2 = [1, 2, 3]) ∧
    (((HeapModel.RWMtxSliceH.Clone
        (⟨[[1, 2, 3]]⟩ : HeapModel.Heap (List Nat)) ⟨0⟩).1.write
        (HeapModel.RWMtxSliceH.Clone
          (⟨[[1, 2, 3]]⟩ : HeapModel.Heap (List Nat)) ⟨0⟩).2 [99]).read 0 =
      [1, 2, 3]) :=
  ⟨(c9_clone_independent ⟨[[1, 2, 3]]⟩ ⟨0⟩ (by decide)).1,
   ((c9_clone_independent ⟨[[1, 2, 3]]⟩ ⟨0⟩ (by decide)).2.1).trans rfl,
   ((c9_clone_independent ⟨[[1, 2, 3]]⟩ ⟨0⟩ (by decide)).2.2.1 [99]).trans rfl⟩

/-- C2 counterexample: `RWMtxMap` embeds `RWMtx[map[K]V]`, so the promoted
`Get()` is public on the map guard and returns the guarded map value — in
Go, a live reference to the hash table, not a copy.  Concretely: a guard at
cell 0 holding `{1 ↦ 10}`; `Get()` returns exactly the internal reference,
and a lock-free store of `1 ↦ 99` through that returned handle changes what
the guard's own `Load(1)` subsequently observes (from `(10, true)` to
`(99, true)`), which is impossible if `Get()` had returned a copy. -/
theorem c2_counterexample :
    (HeapModel.RWMtxMapH.Get (⟨0⟩ : HeapModel.RWMtxMapH Nat Nat) =
      (⟨0⟩ : HeapModel.RWMtxMapH Nat Nat).mref) ∧
    (HeapModel.RWMtxMapH.Load
      (⟨[goStore (fun _ => none) 1 10]⟩ : HeapModel.Heap (GoMap Nat Nat))
      ⟨0⟩ 1 = (10, true)) ∧
    (HeapModel.RWMtxMapH.Load
      (HeapModel.rawStore
        (⟨[goStore (fun _ => none) 1 10]⟩ : HeapModel.Heap (GoMap Nat Nat))
        (HeapModel.RWMtxMapH.Get (⟨0⟩ : HeapModel.RWMtxMapH Nat Nat)) 1 99)
      ⟨0⟩ 1 = (99, true)) ∧
    (HeapModel.RWMtxMapH.Load
      (HeapModel.rawStore
        (⟨[goStore (fun _ => none) 1 10]⟩ : HeapModel.Heap (GoMap Nat Nat))
        (HeapModel.RWMtxMapH.Get (⟨0⟩ : HeapModel.RWMtxMapH Nat Nat)) 1 99)
      ⟨0⟩ 1 ≠
     HeapModel.RWMtxMapH.Load
      (⟨[goStore (fun _ => none) 1 10]⟩ : HeapModel.Heap (GoMap Nat Nat))
      ⟨0⟩ 1) := by
  refine ⟨rfl, rfl, rfl, ?_⟩
  intro hEq
  exact absurd (congrArg Prod.fst hEq) (by decide)

/-- C2 amended: the container-specific operations cross only copies — the
slice guard's `Clone()` returns a freshly allocated array (reference
distinct from the guard's backing array) holding equal contents, and the
value guard's `Get()` returns the guarded value itself (a copy under Go
value semantics for a plain value) — but the `Get` promoted from the
embedded `RWMtx` onto a container guard returns the live container
reference, not a copy. -/
theorem c2_amended_copies {T K V : Type} (g : HeapModel.RWMtxMapH K V)
    (h : HeapModel.Heap (List T)) (s : HeapModel.RWMtxSliceH T)
    (m : RWMtx T) (hwf : s.aref < h.cells.length) :
    (HeapModel.RWMtxMapH.Get g = g.mref) ∧
    ((HeapModel.RWMtxSliceH.Clone h s).2 ≠ s.aref) ∧
    ((HeapModel.RWMtxSliceH.Clone h s).1.read
        (HeapModel.RWMtxSliceH.Clone h s).2 = h.read s.aref) ∧
    (m.Get = m.v) := by
  refine ⟨rfl, ?_, ?_, rfl⟩
  · have : (HeapModel.RWMtxSliceH.Clone h s).2 = h.cells.length := rfl
    rw [this]; omega
  · exact HeapModel.Heap.read_alloc_fresh h (h.read s.aref)

/-- C2 amended witness: concrete instances of each conjunct. -/
theorem c2_amended_copies_witness :
    (HeapModel.RWMtxMapH.Get (⟨5⟩ : HeapModel.RWMtxMapH Nat Nat) = 5) ∧
    ((HeapModel.RWMtxSliceH.Clone
        (⟨[[4, 4]]⟩ : HeapModel.Heap (List Nat)) ⟨0⟩).2 ≠ 0) ∧
    ((HeapModel.RWMtxSliceH.Clone
        (⟨[[4, 4]]⟩ : HeapModel.Heap (List Nat)) ⟨0⟩).1.read
        (HeapModel.RWMtxSliceH.Clone
          (⟨[[4, 4]]⟩ : HeapModel.Heap (List Nat)) ⟨0⟩).2 = [4, 4]) ∧
    ((NewRWMtx 3).Get = 3) :=
  ⟨(c2_amended_copies (⟨5⟩ : HeapModel.RWMtxMapH Nat Nat)
      (⟨[[4, 4]]⟩ : HeapModel.Heap (List Nat)) ⟨0⟩ (NewRWMtx 3)
      (by decide)).1,
   (c2_amended_copies (⟨5⟩ : HeapModel.RWMtxMapH Nat Nat)
      (⟨[[4, 4]]⟩ : HeapModel.Heap (List Nat)) ⟨0⟩ (NewRWMtx 3)
      (by decide)).2.1,
   ((c2_amended_copies (⟨5⟩ : HeapModel.RWMtxMapH Nat Nat)
      (⟨[[4, 4]]⟩ : HeapModel.Heap (List Nat)) ⟨0⟩ (NewRWMtx 3)
      (by decide)).2.2.1).trans rfl,
   (c2_amended_copies (⟨5⟩ : HeapModel.RWMtxMapH Nat Nat)
      (⟨[[4, 4]]⟩ : HeapModel.Heap (List Nat)) ⟨0⟩ (NewRWMtx 3)
      (by decide)).2.2.2⟩
